import Mathlib

/-!
Verification of the conway-sat repository: a shallow embedding of the
Game-of-Life forward step (game_of_life.py), the z3-based backward solver
constraint system (sat_solver.py), the connected-component region
decomposition (sat_solver.py), the bisection minimality search
(visualization.py, solve_global_backwards) and the tree-search scheduler
step (tree_vis.py, search_worker), together with theorems settling the
frozen claims about them.

Grids are boolean matrices, embedded as functions Nat -> Nat -> Bool
together with explicit height/width bounds; all properties quantify only
over in-bounds cells.  The external z3 oracle is modelled
nondeterministically: a grid is a possible return value of
solve_initial_for_target exactly when some assignment of all layer
variables satisfies every constraint the function asserts.
-/

/-- A grid is a boolean matrix, read as g row col (source: numpy arrays
indexed target[y, x]). Cells outside the stated height/width bounds are
irrelevant to every property below. -/
abbrev Grid := Nat → Nat → Bool

/-- Build a grid from a list of rows (missing entries read as dead). -/
def gridOfList (l : List (List Bool)) : Grid :=
  fun y x => ((l.getD y []).getD x false)

/-- Cell-wise equality of two grids on the h by w in-bounds region
(source: numpy == on same-shaped arrays). -/
def gridEq (h w : Nat) (g1 g2 : Grid) : Prop :=
  ∀ y < h, ∀ x < w, g1 y x = g2 y x

instance (h w : Nat) (g1 g2 : Grid) : Decidable (gridEq h w g1 g2) := by
  unfold gridEq; infer_instance

/-- Number of live cells of the h by w grid (source: np.sum / Sum of the
layer-0 indicator terms in solve_initial_for_target). -/
def popcount (h w : Nat) (g : Grid) : Nat :=
  ((List.range h).map (fun y =>
    ((List.range w).map (fun x => if g y x then 1 else 0)).sum)).sum

/-- Row-major list of the coordinates (y, x) of live in-bounds cells
(source: np.where(target == 1), which scans row-major). -/
def liveList (h w : Nat) (g : Grid) : List (Nat × Nat) :=
  (List.range h).flatMap (fun y =>
    (List.range w).filterMap (fun x => if g y x then some (y, x) else none))

/-- Number of in-bounds cells where the two grids differ. -/
def hamming_diff (h w : Nat) (g1 g2 : Grid) : Nat :=
  ((List.range h).map (fun y =>
    ((List.range w).map (fun x => if g1 y x = g2 y x then 0 else 1)).sum)).sum

/-- Chebyshev (king-move) distance between two cells, on Nat coordinates. -/
def chebDist (y1 x1 y2 x2 : Nat) : Nat :=
  max (max (y1 - y2) (y2 - y1)) (max (x1 - x2) (x2 - x1))

/-! ## Forward step: GameOfLife.step (game_of_life.py)

step computes neighbor counts as the sum of the eight np.roll shifts of
the grid, so every neighborhood wraps around toroidally:
np.roll(grid, i, axis 0)[y][x] = grid[(y - i) mod h][x]. -/

/-- Toroidal index shift: position y of the grid rolled by i along an axis
of length n reads original index (y - i) mod n (source: np.roll). -/
def rollIdx (n : Nat) (i : Int) (y : Nat) : Nat :=
  (((y : Int) - i) % (n : Int)).toNat

/-- The eight neighbor offsets (i, j), i and j in {-1, 0, 1}, not both 0,
in the iteration order of the source loops. -/
def neighborOffsets : List (Int × Int) :=
  [(-1, -1), (-1, 0), (-1, 1), (0, -1), (0, 1), (1, -1), (1, 0), (1, 1)]

/-- Toroidal live-neighbor count of cell (y, x) (source: GameOfLife.step,
neighbors = sum of the eight rolled copies of the grid). -/
def gameOfLife_neighbors (h w : Nat) (g : Grid) (y x : Nat) : Nat :=
  (neighborOffsets.map (fun d =>
    if g (rollIdx h d.1 y) (rollIdx w d.2 x) then 1 else 0)).sum

/-- One forward generation (source: GameOfLife.step): birth when a dead
cell has exactly 3 toroidal neighbors, survival when a live cell has 2 or
3; everything else dies. -/
def gameOfLife_step (h w : Nat) (g : Grid) : Grid :=
  fun y x =>
    let n := gameOfLife_neighbors h w g y x
    (n == 3 && !(g y x)) || ((n == 2 || n == 3) && g y x)

/-! ## SAT transition encoding (sat_solver.py) -/

/-- In-scope neighbor values of cell (x, y) (source: neighbor_bools).
With wrap, indices are reduced modulo width/height; without wrap,
out-of-bounds neighbors are dropped from the list. -/
def neighbor_bools (g : Grid) (x y : Nat) (width height : Nat) (wrap : Bool) :
    List Bool :=
  neighborOffsets.filterMap (fun d =>
    let nx : Int := (x : Int) + d.2
    let ny : Int := (y : Int) + d.1
    if wrap then
      some (g ((ny % (height : Int)).toNat) ((nx % (width : Int)).toNat))
    else if 0 ≤ nx ∧ nx < (width : Int) ∧ 0 ≤ ny ∧ ny < (height : Int) then
      some (g ny.toNat nx.toNat)
    else
      none)

/-- Live count of a neighbor list (source: Sum([If(n,1,0) for n in ...])). -/
def liveCountOf (ns : List Bool) : Nat :=
  (ns.map (fun n => if n then 1 else 0)).sum

/-- Value the transition constraint of life_transition forces on the
next-layer cell: survive = cell and count in {2,3}, born = not cell and
count = 3, next = survive or born. -/
def life_next (g : Grid) (x y : Nat) (width height : Nat) (wrap : Bool) : Bool :=
  let cell := g y x
  let live_count := liveCountOf (neighbor_bools g x y width height wrap)
  (cell && (live_count == 2 || live_count == 3)) ||
    (!cell && live_count == 3)

/-- One whole-grid application of the non-wrapping transition formula,
the function the constraint layer of sat_solver encodes cell by cell. -/
def step_nowrap (h w : Nat) (g : Grid) : Grid :=
  fun y x => life_next g x y w h false

/-- All transition constraints between consecutive layers hold (source:
life_transition applied for t in range(steps)). -/
def layers_consistent (h w steps : Nat) (wrap : Bool)
    (L : Nat → Grid) : Prop :=
  ∀ t < steps, ∀ y < h, ∀ x < w, L (t + 1) y x = life_next (L t) x y w h wrap

instance (h w steps : Nat) (wrap : Bool) (L : Nat → Grid) :
    Decidable (layers_consistent h w steps wrap L) := by
  unfold layers_consistent; infer_instance

/-- The final layer is pinned to the target cell by cell (source: the
s.add(layers[steps][y][x] == bool(target[y,x])) loop). -/
def target_fixed (h w steps : Nat) (target : Grid) (L : Nat → Grid) : Prop :=
  ∀ y < h, ∀ x < w, L steps y x = target y x

instance (h w steps : Nat) (target : Grid) (L : Nat → Grid) :
    Decidable (target_fixed h w steps target L) := by
  unfold target_fixed; infer_instance

/-- Minimum of a list of naturals (source: numpy .min() on a nonempty
array; the empty case never arises at call sites and defaults to 0). -/
def natListMin : List Nat → Nat
  | [] => 0
  | x :: xs => xs.foldl min x

/-- Maximum of a list of naturals (source: numpy .max(), as above). -/
def natListMax : List Nat → Nat
  | [] => 0
  | x :: xs => xs.foldl max x

/-- An inclusive rectangular window of rows y0..y1 and columns x0..x1. -/
structure Box where
  y0 : Nat
  y1 : Nat
  x0 : Nat
  x1 : Nat
deriving DecidableEq, Repr

/-- The locality window of solve_initial_for_target: bounding box of the
live target cells grown by margin and clamped to the grid (source:
y_min = max(0, ys.min()-margin) etc.; Nat subtraction is the max-with-0). -/
def windowOf (h w margin : Nat) (target : Grid) : Box :=
  let ys := (liveList h w target).map Prod.fst
  let xs := (liveList h w target).map Prod.snd
  { y0 := natListMin ys - margin
    y1 := min (h - 1) (natListMax ys + margin)
    x0 := natListMin xs - margin
    x1 := min (w - 1) (natListMax xs + margin) }

/-- Membership of cell (y, x) in a window (source: the test
x_min <= xx <= x_max and y_min <= yy <= y_max). -/
def inBox (b : Box) (y x : Nat) : Prop :=
  b.x0 ≤ x ∧ x ≤ b.x1 ∧ b.y0 ≤ y ∧ y ≤ b.y1

instance (b : Box) (y x : Nat) : Decidable (inBox b y x) := by
  unfold inBox; infer_instance

/-- The locality restriction block of solve_initial_for_target: when the
target has at least one live cell, every layer-0 cell outside the window
is forced dead and at least one layer-0 cell inside the window is forced
live; with no live target cell the block is skipped entirely. -/
def restrictOK (h w margin : Nat) (target L0 : Grid) : Prop :=
  liveList h w target ≠ [] →
    ((∀ y < h, ∀ x < w, ¬ inBox (windowOf h w margin target) y x →
        L0 y x = false) ∧
     (∃ y < h, ∃ x < w, inBox (windowOf h w margin target) y x ∧
        L0 y x = true))

instance (h w margin : Nat) (target L0 : Grid) :
    Decidable (restrictOK h w margin target L0) := by
  unfold restrictOK; infer_instance

/-- The diversity block of solve_initial_for_target: for each excluded
model (a list of (y, x) coordinates), the clause keeps only in-bounds
coordinates and, when nonempty, requires at least one of those layer-0
cells to be dead (source: diff_clause and s.add(Or(diff_clause))). -/
def excludeOK (h w : Nat) (excludeModels : List (List (Nat × Nat)))
    (L0 : Grid) : Prop :=
  ∀ m ∈ excludeModels,
    (m.filter (fun p => decide (p.1 < h) && decide (p.2 < w))) ≠ [] →
      ∃ p ∈ (m.filter (fun p => decide (p.1 < h) && decide (p.2 < w))),
        L0 p.1 p.2 = false

instance (h w : Nat) (ms : List (List (Nat × Nat))) (L0 : Grid) :
    Decidable (excludeOK h w ms L0) := by
  unfold excludeOK; infer_instance

/-- Coordinate list of the live cells of an exclusion grid: the adapter
from a stored ancestor Grid to the (y, x) model list consumed by the
diversity block of solve_initial_for_target. -/
def coordsOfGrid (h w : Nat) (E : Grid) : List (Nat × Nat) :=
  liveList h w E

/-- A grid A is a possible return value of solve_initial_for_target on
the given arguments: some assignment L of all steps+1 variable layers
satisfies every constraint the function asserts (transition constraints,
target pinning, the layer-0 cardinality bound, the locality restriction
when restrict is set, and one diversity clause per excluded model), and A
is the layer-0 decode of L.  The z3 oracle is a black box, so any satisfying
assignment may be the model it reports. -/
def solve_returns (h w : Nat) (target : Grid) (steps : Nat) (wrap : Bool)
    (margin : Nat) (restrict : Bool)
    (excludeModels : List (List (Nat × Nat))) (max_ones : Nat)
    (A : Grid) : Prop :=
  ∃ L : Nat → Grid,
    layers_consistent h w steps wrap L ∧
    target_fixed h w steps target L ∧
    popcount h w (L 0) ≤ max_ones ∧
    (restrict = true → restrictOK h w margin target (L 0)) ∧
    excludeOK h w excludeModels (L 0) ∧
    (∀ y < h, ∀ x < w, A y x = L 0 y x)

/-- The all-dead grid. -/
def gEmpty : Grid := fun _ _ => false

/-- The 3 by 3 grid with live corners. -/
def gCorners : Grid :=
  gridOfList [[true, false, true], [false, false, false], [true, false, true]]

example : gridEq 3 3 (step_nowrap 3 3 gCorners) gEmpty := by decide
example : ¬ gridEq 3 3 (gameOfLife_step 3 3 gCorners) gEmpty := by decide
example : gridEq 3 3 (gameOfLife_step 3 3 gEmpty) gEmpty := by decide

/-! ## Connected-component region decomposition (sat_solver.py)

The fallback BFS labeling of _find_components, the per-label bounding
boxes of _boxes_from_labels, the box merge loop, and
solve_backward_components itself.  The per-region z3 invocation is the
one external step and is passed in as a function from the region box to an
optional sub-grid. -/

/-- One flood fill of the BFS inside _find_components: pop a cell from
the stack, label and push every in-bounds live unlabeled 8-neighbor.  The
fuel argument only bounds the iteration count; each cell is pushed at
most once (exactly when it gets its label), so fuel h*w+1 always runs the
loop to completion. -/
def floodLoop : Nat → Nat → Nat → Grid → List (Nat × Nat) →
    (Nat → Nat → Nat) → Nat → (Nat → Nat → Nat)
  | 0, _, _, _, _, labeled, _ => labeled
  | _ + 1, _, _, _, [], labeled, _ => labeled
  | fuel + 1, h, w, target, (cy, cx) :: rest, labeled, n =>
    let pushed := neighborOffsets.foldl
      (fun (acc : (Nat → Nat → Nat) × List (Nat × Nat)) d =>
        let ny : Int := (cy : Int) + d.1
        let nx : Int := (cx : Int) + d.2
        if 0 ≤ ny ∧ ny < (h : Int) ∧ 0 ≤ nx ∧ nx < (w : Int) then
          if target ny.toNat nx.toNat ∧ acc.1 ny.toNat nx.toNat = 0 then
            ((fun yy xx =>
                if yy = ny.toNat ∧ xx = nx.toNat then n else acc.1 yy xx),
             (ny.toNat, nx.toNat) :: acc.2)
          else acc
        else acc)
      (labeled, rest)
    floodLoop fuel h w target pushed.2 pushed.1 n

/-- Labeling pass of _find_components (fallback branch): scan row-major;
each live still-unlabeled cell opens component n+1 and flood fills it. -/
def find_components (h w : Nat) (target : Grid) : (Nat → Nat → Nat) × Nat :=
  (List.range h).foldl (fun acc y =>
    (List.range w).foldl (fun (acc : (Nat → Nat → Nat) × Nat) x =>
      if target y x ∧ acc.1 y x = 0 then
        let n := acc.2 + 1
        let labeled := fun yy xx =>
          if yy = y ∧ xx = x then n else acc.1 yy xx
        (floodLoop (h * w + 1) h w target [(y, x)] labeled n, n)
      else acc) acc)
    ((fun _ _ => 0), 0)

/-- Row-major coordinates of the cells carrying a given label (source:
np.where(labeled == i)). -/
def cellsWithLabel (h w : Nat) (labeled : Nat → Nat → Nat) (i : Nat) :
    List (Nat × Nat) :=
  (List.range h).flatMap (fun y =>
    (List.range w).filterMap (fun x =>
      if labeled y x = i then some (y, x) else none))

/-- Per-component bounding boxes grown by the buffer and clamped to the
grid (source: _boxes_from_labels; empty labels are skipped). -/
def boxes_from_labels (labeled : Nat → Nat → Nat) (n_components buffer h w : Nat) :
    List Box :=
  ((List.range n_components).map (fun k => k + 1)).filterMap (fun i =>
    let cs := cellsWithLabel h w labeled i
    if cs = [] then none
    else
      let ys := cs.map Prod.fst
      let xs := cs.map Prod.snd
      some { y0 := natListMin ys - buffer
             y1 := min (h - 1) (natListMax ys + buffer)
             x0 := natListMin xs - buffer
             x1 := min (w - 1) (natListMax xs + buffer) })

/-- Box intersection test (source: _overlap). -/
def boxOverlap (a b : Box) : Bool :=
  decide (b.x0 ≤ a.x1) && decide (a.x0 ≤ b.x1) &&
    decide (b.y0 ≤ a.y1) && decide (a.y0 ≤ b.y1)

/-- Union bounding box of two boxes (source: _merge_two). -/
def mergeTwo (a b : Box) : Box :=
  { y0 := min a.y0 b.y0, y1 := max a.y1 b.y1,
    x0 := min a.x0 b.x0, x1 := max a.x1 b.x1 }

/-- Inner scan of one merge pass: absorb into cur every later box that
overlaps it (growing cur as it goes, exactly like the j loop over the
used flags), returning the grown box, the untouched boxes in order, and
whether anything merged. -/
def absorbScan : Box → List Box → Box × List Box × Bool
  | cur, [] => (cur, [], false)
  | cur, b :: rest =>
    if boxOverlap cur b then
      let r := absorbScan (mergeTwo cur b) rest
      (r.1, r.2.1, true)
    else
      let r := absorbScan cur rest
      (r.1, b :: r.2.1, r.2.2)

/-- One pass of the merge loop body (the for-i loop with used flags).
The fuel only bounds the recursion depth: the leftover of an absorb scan
is never longer than the scanned list, so fuel length+1 always completes
the pass. -/
def mergeOnePass : Nat → List Box → List Box × Bool
  | _, [] => ([], false)
  | 0, boxes => (boxes, false)
  | fuel + 1, b :: rest =>
    let a := absorbScan b rest
    let r := mergeOnePass fuel a.2.1
    (a.1 :: r.1, a.2.2 || r.2)

/-- The while-changed loop of _merge_overlapping_boxes.  Every changed
pass strictly shortens the list, so fuel length+1 runs it to stability. -/
def mergeLoop : Nat → List Box → List Box
  | 0, boxes => boxes
  | fuel + 1, boxes =>
    let r := mergeOnePass (boxes.length + 1) boxes
    if r.2 then mergeLoop fuel r.1 else r.1

/-- Merge overlapping boxes until stable (source: _merge_overlapping_boxes). -/
def merge_overlapping_boxes (boxes : List Box) : List Box :=
  mergeLoop (boxes.length + 1) boxes

/-- Component bounding boxes of a target (source:
bounding_boxes_from_components): label, box per label, merge; empty
target yields no boxes. -/
def bounding_boxes_from_components (h w : Nat) (target : Grid)
    (buffer : Nat) : List Box :=
  let fc := find_components h w target
  if fc.2 = 0 then []
  else merge_overlapping_boxes (boxes_from_labels fc.1 fc.2 buffer h w)

/-- In-place or of a sub-grid into the combined grid over a box (source:
combined[y0:y1+1, x0:x1+1] |= sub_init; the sub-grid is indexed from the
box corner). -/
def orInto (combined : Grid) (b : Box) (sub : Grid) : Grid :=
  fun y x =>
    if b.y0 ≤ y ∧ y ≤ b.y1 ∧ b.x0 ≤ x ∧ x ≤ b.x1 then
      combined y x || sub (y - b.y0) (x - b.x0)
    else combined y x

/-- Region decomposition solver (source: solve_backward_components).  The
per-region backward solve is the external z3 call, passed in as subSolve
from the region box to an optional sub-grid.  With no live component the
function returns the all-dead grid immediately; otherwise it ors every
successful sub-result into a zero-initialized accumulator and returns the
accumulator.  The source never returns None. -/
def solve_backward_components (h w : Nat) (target : Grid)
    (subSolve : Box → Option Grid) : Option Grid :=
  let boxes := bounding_boxes_from_components h w target 3
  if boxes = [] then some (fun _ _ => false)
  else some (boxes.foldl (fun combined b =>
    match subSolve b with
    | some sub => orInto combined b sub
    | none => combined) (fun _ _ => false))


/-- A 3 by 3 target with a single live cell in the middle. -/
def gCenter : Grid :=
  gridOfList [[false, false, false], [false, true, false], [false, false, false]]

example : bounding_boxes_from_components 3 3 gCenter 3 =
    [{ y0 := 0, y1 := 2, x0 := 0, x1 := 2 }] := by decide

/-! ## Minimality search (visualization.py, solve_global_backwards)

The while loop bisects on the max_ones bound, remembering the last
successful model; the single z3 invocation per probe is the external step,
passed in as an oracle from the probed bound to an optional grid. -/

/-- The while loop of solve_global_backwards: probe the midpoint bound;
on success move max_ones down to the midpoint and remember the model, on
failure move min_ones above it; stop when min_ones is not below max_ones
and return the final min_ones together with the remembered model. -/
def bisectLoop (oracle : Nat → Option Grid) (min_ones max_ones : Nat)
    (best : Option Grid) : Nat × Option Grid :=
  if min_ones < max_ones then
    match oracle ((min_ones + max_ones) / 2) with
    | some g => bisectLoop oracle min_ones ((min_ones + max_ones) / 2) (some g)
    | none => bisectLoop oracle ((min_ones + max_ones) / 2 + 1) max_ones best
  else (min_ones, best)
termination_by max_ones - min_ones
decreasing_by
  · omega
  · omega

/-- Minimality search (source: solve_global_backwards): bisect from
min_ones = 1 up to the given max_ones; if any probe succeeded, re-solve
once at the final min_ones bound and return that model (or None when the
retry fails); with no success at all return None. -/
def solve_global_backwards (oracle : Nat → Option Grid) (max_ones : Nat) :
    Option Grid :=
  let r := bisectLoop oracle 1 max_ones none
  match r.2 with
  | some _ =>
    match oracle r.1 with
    | some g => some g
    | none => none
  | none => none

/-! ## Tree scheduler (tree_vis.py, search_worker)

Nodes live in an id-addressed store; parent, children, exclusion history
and grid are per-id fields, worker location is a node id.  This mirrors
the pointer structure of the Node objects. -/

/-- The mutable scheduler state seen by one worker: the node store
(ids below nextId are allocated) and the location of the worker. -/
structure TreeState where
  nextId : Nat
  parentOf : Nat → Option Nat
  childrenOf : Nat → List Nat
  excludedOf : Nat → List Grid
  gridAt : Nat → Grid
  workerLoc : Nat

/-- Success branch of search_worker (ancestor is not None): allocate a
child node holding the returned grid under the node of the worker, append
the grid to the exclusion history of that node, and move the worker there
(source: add_child, excluded_from_sat.append, worker_locations update). -/
def successStep (s : TreeState) (ancestor : Grid) : TreeState :=
  { nextId := s.nextId + 1
    parentOf := fun i => if i = s.nextId then some s.workerLoc else s.parentOf i
    childrenOf := fun i =>
      if i = s.workerLoc then s.childrenOf i ++ [s.nextId] else s.childrenOf i
    excludedOf := fun i =>
      if i = s.workerLoc then s.excludedOf i ++ [ancestor] else s.excludedOf i
    gridAt := fun i => if i = s.nextId then ancestor else s.gridAt i
    workerLoc := s.nextId }

/-- Chain length to the root through parent links (source: Node.depth).
The fuel only bounds the loop; on well-formed stores whose parent ids
strictly decrease, fuel nextId+1 always reaches the root, and a node
whose parent is None has depth 0 under any positive fuel. -/
def depthFuel : Nat → (Nat → Option Nat) → Nat → Nat
  | 0, _, _ => 0
  | fuel + 1, par, i =>
    match par i with
    | none => 0
    | some p => depthFuel fuel par p + 1

/-- Depth of node i in the store (source: Node.depth). -/
def nodeDepth (s : TreeState) (i : Nat) : Nat :=
  depthFuel (s.nextId + 1) s.parentOf i

/-- Walk k parent links, stopping early at a root (source: the
for _ in range(steps) loop with the inner parent check). -/
def upBy (par : Nat → Option Nat) : Nat → Nat → Nat
  | 0, i => i
  | k + 1, i =>
    match par i with
    | some p => upBy par k p
    | none => i

/-- Python random.randint(a, b): raises ValueError exactly when b < a
(modelled as none); otherwise some value in [a, b], selected by the
draw argument. -/
def randint (a b draw : Nat) : Option Nat :=
  if b < a then none else some (min (a + draw) b)

/-- What one failure-branch execution of the worker loop does next. -/
inductive WorkerOutcome where
  | continueAt (loc : Nat)
  | raisedValueError
deriving DecidableEq, Repr

/-- Failure branch of search_worker (ancestor is None): with the 15
percent draw (jump = true) pick randint(1, depth) and walk that many
parent links — at depth 0 the randint call raises ValueError and kills
the worker thread; otherwise move one step to the parent when one
exists, and otherwise fall through the pass branch, leaving the worker
at its node with the loop still running. -/
def failBranch (s : TreeState) (jump : Bool) (draw : Nat) : WorkerOutcome :=
  let curr := s.workerLoc
  if jump then
    match randint 1 (nodeDepth s curr) draw with
    | none => .raisedValueError
    | some k => .continueAt (upBy s.parentOf k curr)
  else
    match s.parentOf curr with
    | some p => .continueAt p
    | none => .continueAt curr


/-! ## Helper lemmas -/

/-- Membership in the live-cell coordinate list characterised. -/
theorem liveList_mem (h w : Nat) (g : Grid) (p : Nat × Nat) :
    p ∈ liveList h w g ↔ p.1 < h ∧ p.2 < w ∧ g p.1 p.2 = true := by
  obtain ⟨y, x⟩ := p
  simp only [liveList, List.mem_flatMap, List.mem_filterMap, List.mem_range]
  constructor
  · rintro ⟨a, ha, b, hb, hif⟩
    by_cases hg : g a b
    · simp only [hg, if_pos, Option.some.injEq, Prod.mk.injEq] at hif
      obtain ⟨rfl, rfl⟩ := hif
      exact ⟨ha, hb, hg⟩
    · simp [hg] at hif
  · rintro ⟨hy, hx, hg⟩
    exact ⟨y, hy, x, hx, by simp [hg]⟩

/-- The in-bounds filter of the diversity block is the identity on
coordinate lists produced from stored grids. -/
theorem coordsOfGrid_filter_inbounds (h w : Nat) (E : Grid) :
    (coordsOfGrid h w E).filter
        (fun p => decide (p.1 < h) && decide (p.2 < w)) =
      coordsOfGrid h w E := by
  apply List.filter_eq_self.mpr
  intro p hp
  have hm := (liveList_mem h w E p).mp hp
  simp [hm.1, hm.2.1]

/-- Two grids agreeing on the in-bounds region give the same non-wrap
neighbor list at every in-bounds cell: the non-wrap list only reads
in-bounds cells. -/
theorem neighbor_bools_congr (g1 g2 : Grid) (x y w h : Nat)
    (hag : ∀ yy < h, ∀ xx < w, g1 yy xx = g2 yy xx) :
    neighbor_bools g1 x y w h false = neighbor_bools g2 x y w h false := by
  unfold neighbor_bools
  apply List.filterMap_congr
  intro d _
  simp only [Bool.false_eq_true, if_false]
  split
  · next hin =>
    have hyy : ((y : Int) + d.1).toNat < h := by omega
    have hxx : ((x : Int) + d.2).toNat < w := by omega
    rw [hag _ hyy _ hxx]
  · rfl

/-- Two grids agreeing on the in-bounds region give the same non-wrap
transition value at every in-bounds cell. -/
theorem life_next_congr (g1 g2 : Grid) (x y w h : Nat)
    (hx : x < w) (hy : y < h)
    (hag : ∀ yy < h, ∀ xx < w, g1 yy xx = g2 yy xx) :
    life_next g1 x y w h false = life_next g2 x y w h false := by
  unfold life_next
  rw [neighbor_bools_congr g1 g2 x y w h hag, hag y hy x hx]

/-- Two grids agreeing on the in-bounds region have the same population. -/
theorem popcount_congr (h w : Nat) (g1 g2 : Grid)
    (hag : ∀ y < h, ∀ x < w, g1 y x = g2 y x) :
    popcount h w g1 = popcount h w g2 := by
  unfold popcount
  congr 1
  apply List.map_congr_left
  intro y hy
  congr 1
  apply List.map_congr_left
  intro x hx
  rw [hag y (List.mem_range.mp hy) x (List.mem_range.mp hx)]

/-- Core of the diversity constraint: when a stored ancestor grid with at
least one live cell is among the excluded models, every grid the solver
can return has one of the live cells of that ancestor dead. -/
theorem exclude_forces_live_diff (h w : Nat) (target : Grid) (steps : Nat)
    (wrap : Bool) (margin : Nat) (restrict : Bool)
    (ms : List (List (Nat × Nat))) (max_ones : Nat) (E A : Grid)
    (hmem : coordsOfGrid h w E ∈ ms)
    (hE : liveList h w E ≠ [])
    (hs : solve_returns h w target steps wrap margin restrict ms max_ones A) :
    ∃ y < h, ∃ x < w, E y x = true ∧ A y x = false := by
  obtain ⟨L, _, _, _, _, hex, hdec⟩ := hs
  have hfil := coordsOfGrid_filter_inbounds h w E
  have hne : (coordsOfGrid h w E).filter
      (fun p => decide (p.1 < h) && decide (p.2 < w)) ≠ [] := by
    rw [hfil]; exact hE
  obtain ⟨p, hp, hdead⟩ := hex _ hmem hne
  rw [hfil] at hp
  have hm := (liveList_mem h w E p).mp hp
  refine ⟨p.1, hm.1, p.2, hm.2.1, hm.2.2, ?_⟩
  rw [hdec p.1 hm.1 p.2 hm.2.1]
  exact hdead


/-! ## Concrete grids used in witnesses and counterexamples -/

/-- Vertical blinker on 3 by 3. -/
def gBlinkV : Grid :=
  gridOfList [[false, true, false], [false, true, false], [false, true, false]]

/-- Horizontal blinker on 3 by 3. -/
def gBlinkH : Grid :=
  gridOfList [[false, false, false], [true, true, true], [false, false, false]]

/-- 5 by 5 target with a single live cell at (2,2). -/
def gT5 : Grid := fun y x => decide (y = 2) && decide (x = 2)

/-- 5 by 5 predecessor of gT5 with live cells (0,0), (1,1), (1,3), (3,1):
its non-wrap step is exactly gT5, yet (0,0) is at Chebyshev distance 2
from the unique live target cell. -/
def gB5 : Grid :=
  gridOfList
    [[true, false, false, false, false],
     [false, true, false, true, false],
     [false, false, false, false, false],
     [false, true, false, false, false],
     [false, false, false, false, false]]

example : gridEq 5 5 (step_nowrap 5 5 gB5) gT5 := by decide

/-! ## Definitions taken from the wording of the spec, for comparison
with the embedded code -/

/-- Modelled from the spec wording of the diversity constraint: the
mismatch threshold it postulates, at least ceil(0.1 * popcount(E)) + 1
differing cells; on Nat, ceil(p/10) is (p+9)/10. -/
def specDiversityThreshold (h w : Nat) (E : Grid) : Nat :=
  (popcount h w E + 9) / 10 + 1

/-- Modelled from the spec wording of the locality restriction: the
allowed set of layer-0 cells, those within Chebyshev (king-move) distance
steps of some live target cell. -/
def specAllowedCell (h w steps : Nat) (target : Grid) (y x : Nat) : Prop :=
  ∃ ty < h, ∃ tx < w, target ty tx = true ∧ chebDist y x ty tx ≤ steps

instance (h w steps : Nat) (target : Grid) (y x : Nat) :
    Decidable (specAllowedCell h w steps target y x) := by
  unfold specAllowedCell; infer_instance

/-! ## Claim C1 -/

/-- C1, counterexample: the round-trip law fails as stated.  With G the
empty 3 by 3 grid, the corner grid gCorners satisfies every constraint of
solve_initial_for_target on target forward(G) with steps = 1 (its
non-wrap step is empty), so the backward solver may return it; but the
forward transition GameOfLife.step is toroidal and maps gCorners to
itself, not to forward(G). -/
theorem roundtrip_toroidal_fails :
    solve_returns 3 3 (gameOfLife_step 3 3 gEmpty) 1 false 3 true [] 500
      gCorners ∧
    ¬ gridEq 3 3 (gameOfLife_step 3 3 gCorners) (gameOfLife_step 3 3 gEmpty) :=
  ⟨⟨fun t => if t = 0 then gCorners else gameOfLife_step 3 3 gEmpty,
    by decide, by decide, by decide, by decide, by decide, by decide⟩,
   by decide⟩

/-- C1, amended: every grid A the backward solver can return for a target
reproduces that target under one application of the non-wraparound
transition encoded by life_transition (steps = 1); the toroidal
GameOfLife.step need not reproduce it when live cells touch the border. -/
theorem roundtrip_nowrap (h w : Nat) (target A : Grid) (margin : Nat)
    (restrict : Bool) (ms : List (List (Nat × Nat))) (max_ones : Nat)
    (hs : solve_returns h w target 1 false margin restrict ms max_ones A) :
    gridEq h w (step_nowrap h w A) target := by
  obtain ⟨L, hlay, htgt, _, _, _, hdec⟩ := hs
  intro y hy x hx
  have h1 : L 1 y x = life_next (L 0) x y w h false :=
    hlay 0 (by omega) y hy x hx
  have h2 : L 1 y x = target y x := htgt y hy x hx
  have hcong : life_next A x y w h false = life_next (L 0) x y w h false :=
    life_next_congr A (L 0) x y w h hx hy hdec
  show life_next A x y w h false = target y x
  rw [hcong, ← h1, h2]

/-- C1, witness for the amended theorem: the horizontal blinker is a
possible return of the backward solver on the vertical blinker, and its
non-wrap step reproduces the target. -/
theorem roundtrip_nowrap_witness :
    solve_returns 3 3 gBlinkV 1 false 3 true [] 500 gBlinkH ∧
    gridEq 3 3 (step_nowrap 3 3 gBlinkH) gBlinkV :=
  have hs : solve_returns 3 3 gBlinkV 1 false 3 true [] 500 gBlinkH :=
    ⟨fun t => if t = 0 then gBlinkH else gBlinkV,
     by decide, by decide, by decide, by decide, by decide, by decide⟩
  ⟨hs, roundtrip_nowrap 3 3 gBlinkV gBlinkH 3 true [] 500 hs⟩

/-! ## Claim C9 -/

/-- C9: the forward step of GameOfLife uses toroidal neighborhoods while
the SAT encoding with its default wrap = false drops out-of-bounds
neighbors.  At the corner (0,0) of the 3 by 3 corner grid, whose live
cells touch the boundary, the non-wrap neighbor list has 3 entries with
no live cell while the wrap list has 8 entries with 3 live cells,
GameOfLife.step counts those same 3 toroidal neighbors, and the two step
functions disagree on the whole grid. -/
theorem wrap_vs_nowrap_neighborhoods :
    (neighbor_bools gCorners 0 0 3 3 false).length = 3 ∧
    (neighbor_bools gCorners 0 0 3 3 true).length = 8 ∧
    liveCountOf (neighbor_bools gCorners 0 0 3 3 false) = 0 ∧
    liveCountOf (neighbor_bools gCorners 0 0 3 3 true) = 3 ∧
    gameOfLife_neighbors 3 3 gCorners 0 0 = 3 ∧
    gCorners 0 0 = true ∧
    ¬ gridEq 3 3 (gameOfLife_step 3 3 gCorners) (step_nowrap 3 3 gCorners) := by
  decide

/-! ## Claim C2 -/

/-- C2, counterexample: the claimed ~90 percent mismatch threshold is not
what the code enforces.  With excluded grid E holding a single live cell,
the spec threshold is 2 differing cells, yet the all-dead grid — which
differs from E in exactly 1 cell — satisfies every constraint of the
solver on the empty target with E excluded, so the solver may return it. -/
theorem diversity_threshold_not_enforced :
    solve_returns 3 3 gEmpty 1 false 3 true [coordsOfGrid 3 3 gCenter] 500
      gEmpty ∧
    hamming_diff 3 3 gEmpty gCenter = 1 ∧
    specDiversityThreshold 3 3 gCenter = 2 :=
  ⟨⟨fun _ => gEmpty,
    by decide, by decide, by decide, by decide, by decide, by decide⟩,
   by decide, by decide⟩

/-- C2, amended: for every grid E in the excluded list that has at least
one live cell, every grid the backward solver returns has at least one of
the live cells of E dead — it differs from E in at least one cell; the code
enforces no larger threshold, and an all-dead E imposes no constraint. -/
theorem diversity_one_cell_differs (h w : Nat) (target : Grid)
    (steps : Nat) (wrap : Bool) (margin : Nat) (restrict : Bool)
    (max_ones : Nat) (Es : List Grid) (E A : Grid)
    (hmem : E ∈ Es) (hE : liveList h w E ≠ [])
    (hs : solve_returns h w target steps wrap margin restrict
      (Es.map (coordsOfGrid h w)) max_ones A) :
    ∃ y < h, ∃ x < w, E y x = true ∧ A y x = false :=
  exclude_forces_live_diff h w target steps wrap margin restrict _ max_ones
    E A (List.mem_map_of_mem _ hmem) hE hs

/-- C2, witness: a concrete run of the amended theorem on the empty
target with the center-cell grid excluded. -/
theorem diversity_one_cell_differs_witness :
    gCenter ∈ [gCenter] ∧ liveList 3 3 gCenter ≠ [] ∧
    solve_returns 3 3 gEmpty 1 false 3 true
      ([gCenter].map (coordsOfGrid 3 3)) 500 gEmpty ∧
    ∃ y < 3, ∃ x < 3, gCenter y x = true ∧ gEmpty y x = false :=
  have hs : solve_returns 3 3 gEmpty 1 false 3 true
      ([gCenter].map (coordsOfGrid 3 3)) 500 gEmpty :=
    ⟨fun _ => gEmpty,
     by decide, by decide, by decide, by decide, by decide, by decide⟩
  ⟨List.mem_singleton.mpr rfl, by decide, hs,
   diversity_one_cell_differs 3 3 gEmpty 1 false 3 true 500 [gCenter]
     gCenter gEmpty (List.mem_singleton.mpr rfl) (by decide) hs⟩

/-! ## Claim C7 -/

/-- C7, counterexample: strict non-repetition fails for an all-dead prior
ancestor.  On the empty target, the all-dead grid A is a valid ancestor
and the corner grid is another valid ancestor, both satisfying every
constraint of the solver called with A excluded (A has no live cells, so
its diversity clause is empty and the code adds no constraint); in
particular the solver may return A itself again. -/
theorem alldead_exclusion_vacuous :
    solve_returns 3 3 gEmpty 1 false 3 true [coordsOfGrid 3 3 gEmpty] 500
      gEmpty ∧
    solve_returns 3 3 gEmpty 1 false 3 true [coordsOfGrid 3 3 gEmpty] 500
      gCorners ∧
    ¬ gridEq 3 3 gCorners gEmpty :=
  ⟨⟨fun _ => gEmpty,
    by decide, by decide, by decide, by decide, by decide, by decide⟩,
   ⟨fun t => if t = 0 then gCorners else gEmpty,
    by decide, by decide, by decide, by decide, by decide, by decide⟩,
   by decide⟩

/-- C7, amended: when the excluded prior ancestor A has at least one live
cell, no grid the backward solver returns equals A; the all-dead ancestor
is the single exception, its exclusion clause being empty. -/
theorem exclusion_never_repeats_live (h w : Nat) (target : Grid)
    (steps : Nat) (wrap : Bool) (margin : Nat) (restrict : Bool)
    (max_ones : Nat) (A B : Grid)
    (hA : liveList h w A ≠ [])
    (hs : solve_returns h w target steps wrap margin restrict
      [coordsOfGrid h w A] max_ones B) :
    ¬ gridEq h w B A := by
  obtain ⟨y, hy, x, hx, hAt, hBf⟩ :=
    exclude_forces_live_diff h w target steps wrap margin restrict _
      max_ones A B (List.mem_singleton.mpr rfl) hA hs
  intro hEq
  have hbx := hEq y hy x hx
  rw [hBf, hAt] at hbx
  exact Bool.noConfusion hbx

/-- C7, witness: with the center-cell grid excluded, the empty grid is a
possible return on the empty target, and it indeed differs from the
excluded ancestor. -/
theorem exclusion_never_repeats_live_witness :
    liveList 3 3 gCenter ≠ [] ∧
    solve_returns 3 3 gEmpty 1 false 3 true [coordsOfGrid 3 3 gCenter] 500
      gEmpty ∧
    ¬ gridEq 3 3 gEmpty gCenter :=
  have hs : solve_returns 3 3 gEmpty 1 false 3 true
      [coordsOfGrid 3 3 gCenter] 500 gEmpty :=
    ⟨fun _ => gEmpty,
     by decide, by decide, by decide, by decide, by decide, by decide⟩
  ⟨by decide, hs,
   exclusion_never_repeats_live 3 3 gEmpty 1 false 3 true 500 gCenter
     gEmpty (by decide) hs⟩


/-! ## Claim C3 -/

/-- C3, counterexample: the allowed region is not the radius-steps
Chebyshev neighborhood of the live target cells.  On the 5 by 5 target
with a single live cell at (2,2) and steps = 1, the grid gB5 satisfies
every constraint of the solver (default margin 3 makes the window the
whole grid), so the solver may return it — yet gB5 is live at (0,0),
which is outside the claimed allowed set of cells within Chebyshev
distance 1 of a live target cell. -/
theorem locality_radius_not_steps :
    solve_returns 5 5 gT5 1 false 3 true [] 500 gB5 ∧
    gB5 0 0 = true ∧
    ¬ specAllowedCell 5 5 1 gT5 0 0 :=
  ⟨⟨fun t => if t = 0 then gB5 else gT5,
    by decide, by decide, by decide, by decide, by decide, by decide⟩,
   by decide, by decide⟩

/-- C3, amended: when the target has at least one live cell, the solver
forces every layer-0 cell outside the bounding box of the live target
cells grown by the margin parameter (default 3, independent of steps) to
be false, and requires at least one live layer-0 cell inside that box;
with no live target cell no locality constraint is added at all. -/
theorem locality_window_is_bbox_margin (h w : Nat) (target A : Grid)
    (steps margin max_ones : Nat) (ms : List (List (Nat × Nat)))
    (hs : solve_returns h w target steps false margin true ms max_ones A)
    (hlive : liveList h w target ≠ []) :
    (∀ y < h, ∀ x < w, ¬ inBox (windowOf h w margin target) y x →
       A y x = false) ∧
    (∃ y < h, ∃ x < w, inBox (windowOf h w margin target) y x ∧
       A y x = true) := by
  obtain ⟨L, _, _, _, hres, _, hdec⟩ := hs
  obtain ⟨hforce, hexist⟩ := hres rfl hlive
  constructor
  · intro y hy x hx hnb
    rw [hdec y hy x hx]
    exact hforce y hy x hx hnb
  · obtain ⟨y, hy, x, hx, hb, hv⟩ := hexist
    exact ⟨y, hy, x, hx, hb, by rw [hdec y hy x hx]; exact hv⟩

/-- C3, witness for the amended theorem, on the 5 by 5 single-cell
target. -/
theorem locality_window_is_bbox_margin_witness :
    solve_returns 5 5 gT5 1 false 3 true [] 500 gB5 ∧
    liveList 5 5 gT5 ≠ [] ∧
    ((∀ y < 5, ∀ x < 5, ¬ inBox (windowOf 5 5 3 gT5) y x →
        gB5 y x = false) ∧
     (∃ y < 5, ∃ x < 5, inBox (windowOf 5 5 3 gT5) y x ∧
        gB5 y x = true)) :=
  have hs : solve_returns 5 5 gT5 1 false 3 true [] 500 gB5 :=
    ⟨fun t => if t = 0 then gB5 else gT5,
     by decide, by decide, by decide, by decide, by decide, by decide⟩
  ⟨hs, by decide,
   locality_window_is_bbox_margin 5 5 gT5 gB5 1 3 500 [] hs (by decide)⟩

/-! ## Claim C4 -/

/-- C4: the success branch of search_worker appends exactly one new child
under the node of the worker, the grid of that child is exactly the returned
ancestor grid and its parent link points back to the node, the ancestor
is appended to the exclusion history of the node, the worker moves to the new
child, and the children and exclusion history of every other node are
untouched. -/
theorem success_step_effect (s : TreeState) (A : Grid) :
    (successStep s A).childrenOf s.workerLoc =
        s.childrenOf s.workerLoc ++ [s.nextId] ∧
    (successStep s A).gridAt s.nextId = A ∧
    (successStep s A).parentOf s.nextId = some s.workerLoc ∧
    (successStep s A).excludedOf s.workerLoc =
        s.excludedOf s.workerLoc ++ [A] ∧
    (successStep s A).workerLoc = s.nextId ∧
    (∀ i, i ≠ s.workerLoc →
       (successStep s A).childrenOf i = s.childrenOf i ∧
       (successStep s A).excludedOf i = s.excludedOf i) := by
  refine ⟨by simp [successStep], by simp [successStep], by simp [successStep],
    by simp [successStep], rfl, ?_⟩
  intro i hi
  exact ⟨by simp [successStep, hi], by simp [successStep, hi]⟩

/-! ## Claim C5 -/

/-- C5: contrary to the documented stop policy, a worker whose solve
attempt fails at a root node does not stop in the ordinary backtracking
branch: the parent check falls through to pass, the worker stays at the
root, and the loop keeps running (the code only breaks on the searching
flag, on the too-many-branches check, or by the ValueError of the random
jump branch). -/
theorem fail_at_root_keeps_looping (s : TreeState) (draw : Nat)
    (hroot : s.parentOf s.workerLoc = none) :
    failBranch s false draw = WorkerOutcome.continueAt s.workerLoc := by
  simp [failBranch, hroot]

/-- C5, witness: a concrete single-root store where the failure branch at
the root continues the loop in place. -/
theorem fail_at_root_keeps_looping_witness :
    (TreeState.mk 1 (fun _ => none) (fun _ => []) (fun _ => [])
        (fun _ => gEmpty) 0).parentOf
      (TreeState.mk 1 (fun _ => none) (fun _ => []) (fun _ => [])
        (fun _ => gEmpty) 0).workerLoc = none ∧
    failBranch (TreeState.mk 1 (fun _ => none) (fun _ => []) (fun _ => [])
        (fun _ => gEmpty) 0) false 0 =
      WorkerOutcome.continueAt 0 :=
  ⟨rfl,
   fail_at_root_keeps_looping
     (TreeState.mk 1 (fun _ => none) (fun _ => []) (fun _ => [])
       (fun _ => gEmpty) 0) 0 rfl⟩

/-! ## Claim C10 -/

/-- C10: in the failure branch at a depth-0 node (a root), taking the
random jump branch evaluates random.randint(1, 0), which raises
ValueError, so the worker thread dies by exception instead of the
documented stop. -/
theorem jump_at_root_raises (s : TreeState) (draw : Nat)
    (hroot : s.parentOf s.workerLoc = none) :
    failBranch s true draw = WorkerOutcome.raisedValueError := by
  have hdep : nodeDepth s s.workerLoc = 0 := by
    unfold nodeDepth depthFuel
    rw [hroot]
  simp [failBranch, hdep, randint]

/-- C10, witness: the concrete single-root store again; the jump branch
raises. -/
theorem jump_at_root_raises_witness :
    (TreeState.mk 1 (fun _ => none) (fun _ => []) (fun _ => [])
        (fun _ => gEmpty) 0).parentOf
      (TreeState.mk 1 (fun _ => none) (fun _ => []) (fun _ => [])
        (fun _ => gEmpty) 0).workerLoc = none ∧
    failBranch (TreeState.mk 1 (fun _ => none) (fun _ => []) (fun _ => [])
        (fun _ => gEmpty) 0) true 5 =
      WorkerOutcome.raisedValueError :=
  ⟨rfl,
   jump_at_root_raises
     (TreeState.mk 1 (fun _ => none) (fun _ => []) (fun _ => [])
       (fun _ => gEmpty) 0) 5 rfl⟩

/-! ## Claim C6 -/

/-- C6, counterexample: when every per-region solve fails, the region
decomposition does not propagate None.  On the 3 by 3 single-cell target
with a sub-solver that always fails, solve_backward_components still
returns a grid — the all-dead accumulator — and not None. -/
theorem region_failure_not_none :
    solve_backward_components 3 3 gCenter (fun _ => none) ≠ none ∧
    gridEq 3 3
      ((solve_backward_components 3 3 gCenter (fun _ => none)).getD
        (fun _ _ => true))
      gEmpty := by
  constructor
  · apply Option.ne_none_iff_isSome.mpr
    decide
  · decide

/-- C6, amended: when every per-region solve fails,
solve_backward_components returns Some of the all-dead grid of the
same shape as the target (its zero-initialized accumulator), never None;
failure is therefore not propagated as None through region
decomposition. -/
theorem region_all_fail_returns_zeros (h w : Nat) (target : Grid)
    (subSolve : Box → Option Grid)
    (hfail : ∀ b, subSolve b = none) :
    ∃ g, solve_backward_components h w target subSolve = some g ∧
      gridEq h w g (fun _ _ => false) := by
  have hfold : ∀ bs : List Box,
      bs.foldl (fun combined b =>
        match subSolve b with
        | some sub => orInto combined b sub
        | none => combined) ((fun _ _ => false) : Grid) =
        ((fun _ _ => false) : Grid) := by
    intro bs
    induction bs with
    | nil => rfl
    | cons b rest ih =>
      rw [List.foldl_cons, hfail b]
      exact ih
  refine ⟨fun _ _ => false, ?_, fun y _ x _ => rfl⟩
  simp only [solve_backward_components]
  by_cases hb : bounding_boxes_from_components h w target 3 = []
  · rw [if_pos hb]
  · rw [if_neg hb, hfold]

/-- C6, witness for the amended theorem: the concrete 3 by 3 single-cell
target with the always-failing sub-solver. -/
theorem region_all_fail_returns_zeros_witness :
    (∀ b : Box, (fun _ : Box => (none : Option Grid)) b = none) ∧
    ∃ g, solve_backward_components 3 3 gCenter (fun _ => none) = some g ∧
      gridEq 3 3 g (fun _ _ => false) :=
  ⟨fun _ => rfl,
   region_all_fail_returns_zeros 3 3 gCenter (fun _ => none) (fun _ => rfl)⟩


/-! ## Claim C8 -/

/-- Any grid the backward solver can return respects the cardinality
constraint on layer 0. -/
theorem solve_returns_popcount_le (h w : Nat) (target : Grid) (steps : Nat)
    (wrap : Bool) (margin : Nat) (restrict : Bool)
    (ms : List (List (Nat × Nat))) (max_ones : Nat) (A : Grid)
    (hs : solve_returns h w target steps wrap margin restrict ms max_ones A) :
    popcount h w A ≤ max_ones := by
  obtain ⟨L, _, _, hcard, _, _, hdec⟩ := hs
  have hc := popcount_congr h w A (L 0) hdec
  omega

/-- The min_ones value the bisection loop ends with never exceeds the
max_ones value it starts from (assuming it starts with min_ones below or
at max_ones, as solve_global_backwards does whenever any probe can
succeed). -/
theorem bisectLoop_fst_le (oracle : Nat → Option Grid) :
    ∀ fuel mn mx best, mx - mn ≤ fuel → mn ≤ mx →
      (bisectLoop oracle mn mx best).1 ≤ mx := by
  intro fuel
  induction fuel with
  | zero =>
    intro mn mx best hf hle
    unfold bisectLoop
    rw [if_neg (by omega)]
    exact hle
  | succ n ih =>
    intro mn mx best hf hle
    unfold bisectLoop
    by_cases hlt : mn < mx
    · rw [if_pos hlt]
      rcases horc : oracle ((mn + mx) / 2) with _ | g
      · exact ih ((mn + mx) / 2 + 1) mx best (by omega) (by omega)
      · exact Nat.le_trans
          (ih mn ((mn + mx) / 2) (some g) (by omega) (by omega)) (by omega)
    · rw [if_neg hlt]
      exact hle

/-- C8: whenever the minimality search of solve_global_backwards returns
a grid, the population of that grid is at most the starting bound.  The
per-probe z3 call is the oracle; the hypothesis states what each oracle
success means: a grid satisfying every backward-solver constraint at the
probed bound (in particular the cardinality bound). -/
theorem minimality_result_le_bound (h w : Nat) (target : Grid)
    (oracle : Nat → Option Grid) (startBound : Nat) (g : Grid)
    (horacle : ∀ b g0, oracle b = some g0 →
      solve_returns h w target 1 false 3 true [] b g0)
    (hres : solve_global_backwards oracle startBound = some g) :
    popcount h w g ≤ startBound := by
  have hres2 : (match (bisectLoop oracle 1 startBound none).2 with
      | some _ =>
        match oracle (bisectLoop oracle 1 startBound none).1 with
        | some g0 => some g0
        | none => none
      | none => (none : Option Grid)) = some g := hres
  rcases hb : (bisectLoop oracle 1 startBound none).2 with _ | gb <;>
    rw [hb] at hres2
  · exact absurd hres2 (by simp)
  · rcases ho : oracle (bisectLoop oracle 1 startBound none).1 with _ | gf <;>
      rw [ho] at hres2
    · exact absurd hres2 (by simp)
    · simp only [Option.some.injEq] at hres2
      subst hres2
      by_cases h1 : 1 ≤ startBound
      · have hle := bisectLoop_fst_le oracle (startBound - 1) 1 startBound
          none (by omega) h1
        have hpop2 := solve_returns_popcount_le h w target 1 false 3 true []
          (bisectLoop oracle 1 startBound none).1 gf (horacle _ _ ho)
        omega
      · have h0 : startBound = 0 := by omega
        subst h0
        rw [show bisectLoop oracle 1 0 none = (1, none) from by
          unfold bisectLoop; rw [if_neg (by omega)]] at hb
        exact absurd hb (by simp)

/-- Oracle for the C8 witness: a backward solve that succeeds exactly
when the probed bound admits the horizontal blinker. -/
def oracleW8 : Nat → Option Grid :=
  fun b => if 3 ≤ b then some gBlinkH else none

/-- C8, witness: running the bisection from bound 5 over oracleW8 on the
vertical-blinker target returns the horizontal blinker, of population 3,
within the starting bound. -/
theorem minimality_result_le_bound_witness :
    (∀ b g0, oracleW8 b = some g0 →
       solve_returns 3 3 gBlinkV 1 false 3 true [] b g0) ∧
    solve_global_backwards oracleW8 5 = some gBlinkH ∧
    popcount 3 3 gBlinkH ≤ 5 := by
  have horacle : ∀ b g0, oracleW8 b = some g0 →
      solve_returns 3 3 gBlinkV 1 false 3 true [] b g0 := by
    intro b g0 hbg
    unfold oracleW8 at hbg
    by_cases h3 : 3 ≤ b
    · rw [if_pos h3] at hbg
      obtain rfl : gBlinkH = g0 := Option.some.inj hbg
      refine ⟨fun t => if t = 0 then gBlinkH else gBlinkV,
        by decide, by decide, ?_, by decide, by decide, by decide⟩
      have hp : popcount 3 3
          ((fun t => if t = 0 then gBlinkH else gBlinkV) 0) = 3 := by decide
      omega
    · rw [if_neg h3] at hbg
      exact absurd hbg (by simp)
  have hres : solve_global_backwards oracleW8 5 = some gBlinkH := by
    simp [solve_global_backwards, bisectLoop, oracleW8]
  exact ⟨horacle, hres,
    minimality_result_le_bound 3 3 gBlinkV oracleW8 5 gBlinkH horacle hres⟩

